import Mathlib

/-!
Verification development for the StudyMate matching engine.

The embedding covers:
* `preprocessing.py` — subject multi-hot encoding against the fixed subject
  vocabulary, `pd.get_dummies(..., drop_first=True)` one-hot encoding of the
  categorical columns against the values observed in the batch, and
  `MinMaxScaler` age normalization;
* `similarity.py` — `compute_multi_dimensional_similarity` (weighted cosine
  similarity over the preferred/strength column groups) and
  `advanced_recommendation_strategy` (per-row argsort window, dict of
  re-scored candidates, stable descending sort, truncation, reversal);
* `api.py` — the `/recommend/{user_id}` read endpoint.

Modelling conventions: exact arithmetic replaces numpy floats (ℚ for the
matrix/ranking data, ℝ for cosine similarity, whose norms need square
roots).  numpy's `argsort` and Python's `sorted` are modelled as stable
sorts: CPython's `sorted` is documented stable (also under `reverse=True`),
and numpy's default sort is insertion sort on the small arrays used here,
which is stable as well.  Python dicts are modelled as insertion-ordered
association lists with in-place value update.
-/

namespace StudyMate

/-- One row of the processed feature DataFrame that `similarity.py` loads
from the `preprocessed` table: the `user_id` column, the three multi-hot
subject blocks (`preferred_*`, `strength_*`, `weak_*`), the scaled `age`
scalar and the one-hot categorical block (`learning_style_*`,
`study_preference_*`, `study_level_*`). -/
structure Row (α : Type) where
  user_id : ℕ
  preferred : List α
  strength : List α
  weak : List α
  age : α
  demographic : List α
deriving DecidableEq

/-- Default row used for out-of-range positional access. -/
def dRow (α : Type) [Zero α] : Row α := ⟨0, [], [], [], 0, []⟩

/-- Embedding of `np.dot` on aligned numeric vectors. -/
def dot {α : Type} [Mul α] [AddCommMonoid α] (u v : List α) : α :=
  (List.zipWith (fun x y => x * y) u v).sum

/-- Euclidean norm of a rational vector, as used by sklearn `normalize`. -/
noncomputable def rowNorm (u : List ℚ) : ℝ :=
  Real.sqrt ((dot u u : ℚ) : ℝ)

/-- sklearn row normalization: rows are divided by their Euclidean norm,
with zero norms replaced by 1 (so an all-zero row stays all-zero). -/
noncomputable def normalizeRow (u : List ℚ) : List ℝ :=
  u.map (fun x : ℚ => (x : ℝ) / (if rowNorm u = 0 then 1 else rowNorm u))

/-- One entry of sklearn `cosine_similarity`: the dot product of the two
normalized rows.  In particular the entry is 0 whenever either row is
all-zero. -/
noncomputable def cosine_sim (u v : List ℚ) : ℝ :=
  dot (normalizeRow u) (normalizeRow v)

/-- Weights dictionary of `compute_multi_dimensional_similarity`. -/
def preferred_weight : ℚ := 3 / 10

/-- Weight on the `strength_*` cosine similarity. -/
def strength_weight : ℚ := 7 / 10

/-- Weight on the `weak_*` cosine similarity (present in the source's
weights dict but not used in the returned combination). -/
def weak_weight : ℚ := 0

/-- Weight on the demographic similarity (present in the source's weights
dict but not used in the returned combination). -/
def demographic_weight : ℚ := 0

/-- Entry `(i, j)` of the combined similarity matrix returned by
`compute_multi_dimensional_similarity`: the source computes
`preferred_sim`, `strength_sim`, `weak_sim` and `demographic_sim`, but the
returned `multi_sim` combines only the preferred and strength cosine
matrices, with weights 0.3 and 0.7 (the weak/demographic terms appear only
in commented-out code, and the weak/demographic similarity values are
never used in the returned matrix). -/
noncomputable def compute_multi_dimensional_similarity
    (features : List (Row ℚ)) (i j : ℕ) : ℝ :=
  (preferred_weight : ℝ) *
      cosine_sim (features.getD i (dRow ℚ)).preferred
        (features.getD j (dRow ℚ)).preferred +
    (strength_weight : ℝ) *
      cosine_sim (features.getD i (dRow ℚ)).strength
        (features.getD j (dRow ℚ)).strength

/-- Embedding of `row.argsort()`: the indices `0, …, n-1` stably sorted by
ascending row value (ties keep ascending index order). -/
def argsort {α : Type} [LinearOrderedField α] (r : List α) : List ℕ :=
  List.insertionSort (fun a b => r.getD a 0 ≤ r.getD b 0) (List.range r.length)

/-- The candidate window `similarity_matrix[idx].argsort()[::-1][1:top_k+1]`. -/
def similar_indices {α : Type} [LinearOrderedField α]
    (m : List (List α)) (idx topk : ℕ) : List ℕ :=
  (((argsort (m.getD idx [])).reverse).drop 1).take topk

/-- The `interests_overlap` term: dot product of the two `preferred_*` blocks. -/
def interests_overlap {α : Type} [LinearOrderedField α]
    (features : List (Row α)) (idx recIdx : ℕ) : α :=
  dot (features.getD idx (dRow α)).preferred
    (features.getD recIdx (dRow α)).preferred

/-- The `final_score`: `0.7 * rec_score + 0.3 * interests_overlap` where
`rec_score = similarity_matrix[idx][rec_idx]` (the
`complementary_weakness_score` is computed by the source but used only in
commented-out code). -/
def final_score {α : Type} [LinearOrderedField α]
    (m : List (List α)) (features : List (Row α)) (idx recIdx : ℕ) : α :=
  7 / 10 * (m.getD idx []).getD recIdx 0 +
    3 / 10 * interests_overlap features idx recIdx

/-- Python dict assignment `d[k] = v` on an insertion-ordered association
list: update in place if the key is present, append otherwise. -/
def dictInsert {α : Type} (d : List (ℕ × α)) (k : ℕ) (v : α) : List (ℕ × α) :=
  if d.any (fun p => p.1 == k) then
    d.map (fun p => if p.1 = k then (k, v) else p)
  else d ++ [(k, v)]

/-- The `rec_scores` dict built for row `idx`: for each index in the
argsort window, map that candidate's `user_id` to its `final_score`. -/
def rec_scores {α : Type} [LinearOrderedField α]
    (m : List (List α)) (features : List (Row α)) (topk idx : ℕ) :
    List (ℕ × α) :=
  (similar_indices m idx topk).foldl
    (fun d recIdx =>
      dictInsert d (features.getD recIdx (dRow α)).user_id
        (final_score m features idx recIdx))
    []

/-- The list `sorted(rec_scores.items(), key=lambda x: x[1], reverse=True)[:top_k]`:
stable sort by descending score, then truncation. -/
def sorted_recs {α : Type} [LinearOrderedField α]
    (m : List (List α)) (features : List (Row α)) (topk idx : ℕ) :
    List (ℕ × α) :=
  (List.insertionSort (fun a b => b.2 ≤ a.2) (rec_scores m features topk idx)).take topk

/-- The final per-profile recommendation list:
`[rec[0] for rec in reversed(v)]` — ids only, in reversed order. -/
def recommendations_for {α : Type} [LinearOrderedField α]
    (m : List (List α)) (features : List (Row α)) (topk idx : ℕ) : List ℕ :=
  ((sorted_recs m features topk idx).reverse).map Prod.fst

/-- The value `advanced_recommendation_strategy(similarity_matrix, features, top_k)`
returns: the dict, modelled as the list of
`(row user_id, recommendation id list)` pairs in row order (user ids are
unique in a valid batch, so the dict keyed by `row["user_id"]` is exactly
this association list). -/
def advanced_recommendation_strategy {α : Type} [LinearOrderedField α]
    (m : List (List α)) (features : List (Row α)) (topk : ℕ) :
    List (ℕ × List ℕ) :=
  (List.range features.length).map
    (fun idx =>
      ((features.getD idx (dRow α)).user_id,
        recommendations_for m features topk idx))

/-! ### preprocessing.py -/

/-- The module-level fixed subject vocabulary of `preprocessing.py`. -/
def subject_vocab : List String :=
  ["Algorithms", "Artificial Intelligence", "Augmented Reality", "Big Data",
   "Bioinformatics", "Blockchains", "Cloud Computing", "Compiler Design",
   "Computer Architecture", "Computer Networks", "Computer Vision",
   "Cryptography", "Cybersecurity", "Data Mining", "Data Structures",
   "Database Management", "Deep Learning", "Digital Logic",
   "Distributed Systems", "Embedded Systems", "Ethical Hacking",
   "Game Development", "Graph Theory", "Human-Computer Interaction",
   "Image Processing", "Internet of Things", "Linear Algebra",
   "Machine Learning", "Mathematics for CS", "Mobile Computing",
   "Natural Language Processing", "Network Security", "Neural Networks",
   "Operating System Internals", "Operating Systems",
   "Optimization Techniques", "Parallel Computing", "Pattern Recognition",
   "Physics for CS", "Probability & Statistics", "Programming Languages",
   "Quantum Computing", "Reinforcement Learning", "Signal Processing",
   "Software Engineering", "Software Testing", "Speech Recognition",
   "Theory of Computation", "Virtual Reality", "Web Development",
   "Wireless Networks"]

/-- The function `encode_subjects(user_subjects)`: the multi-hot vector
`[1 if subject in user_subjects else 0 for subject in subject_vocab]`.
Note that the function is total: a value of `user_subjects` outside the
vocabulary simply never matches any vocabulary entry. -/
def encode_subjects (user_subjects : List String) : List ℕ :=
  subject_vocab.map (fun subject => if subject ∈ user_subjects then 1 else 0)

/-- The categories `pd.get_dummies` derives for one categorical column:
the distinct values observed in the batch, in sorted order. -/
def observed_categories (values : List String) : List String :=
  List.insertionSort (fun a b => a ≤ b) values.dedup

/-- The one-hot columns produced by
`pd.get_dummies(df, columns=[col], drop_first=True)` for one column: the
sorted observed categories with the first one dropped. -/
def dummy_columns (values : List String) : List String :=
  (observed_categories values).drop 1

/-- The one-hot row `pd.get_dummies(..., drop_first=True)` produces for the
value `v` of one categorical column, given the batch `values`. -/
def dummy_row (values : List String) (v : String) : List ℕ :=
  (dummy_columns values).map (fun c => if v = c then 1 else 0)

/-- Minimum of a batch column (`X.min()`), 0 on the empty batch. -/
def list_min (xs : List ℚ) : ℚ :=
  match xs with
  | [] => 0
  | h :: t => t.foldl min h

/-- Maximum of a batch column (`X.max()`), 0 on the empty batch. -/
def list_max (xs : List ℚ) : ℚ :=
  match xs with
  | [] => 0
  | h :: t => t.foldl max h

/-- sklearn `MinMaxScaler().fit_transform` on one column with the default
feature range `(0, 1)`: `(x - min) / (max - min)`, where a zero data range
is replaced by 1 (`_handle_zeros_in_scale`), so a constant column maps to
all zeros. -/
def minmax_scale (xs : List ℚ) : List ℚ :=
  xs.map (fun x =>
    (x - list_min xs) /
      (if list_max xs - list_min xs = 0 then 1 else list_max xs - list_min xs))

/-! ### api.py -/

/-- The database state the `/recommend/{user_id}` endpoint reads: the ids
present in the `users` table (in table order) and the rows of the
`recommended` table. -/
structure DBState where
  users : List ℕ
  recommended : List (ℕ × List ℕ)
deriving DecidableEq

/-- The query `SELECT recommendations FROM recommended WHERE user_id=$1`. -/
def lookup_recommended (db : DBState) (uid : ℕ) : Option (List ℕ) :=
  (db.recommended.find? (fun p => p.1 == uid)).map Prod.snd

/-- The `/recommend/{user_id}` endpoint `get_recommendations`: a missing
`users` row raises `HTTPException(404)`; a present user with no
`recommended` row yields the empty partner list; otherwise the partner
rows are the `users` rows whose id is in the stored recommendation array
(modelled by their ids, in `users`-table order). -/
def get_recommendations (db : DBState) (uid : ℕ) : Except ℕ (List ℕ) :=
  if uid ∈ db.users then
    match lookup_recommended db uid with
    | none => Except.ok []
    | some ids => Except.ok (db.users.filter (fun u => ids.contains u))
  else Except.error 404

/-! ### Concrete batches used by counterexamples and witnesses -/

/-- A three-profile batch (ids 1, 2, 3): no preferred subjects, profiles 1
and 2 share strengths, profile 3 has a disjoint strength. -/
def feats0 : List (Row ℚ) :=
  [⟨1, [0, 0, 0], [1, 1, 0], [0, 0, 0], 20, []⟩,
   ⟨2, [0, 0, 0], [1, 1, 0], [0, 0, 0], 21, []⟩,
   ⟨3, [0, 0, 0], [0, 0, 1], [0, 0, 0], 22, []⟩]

/-- The combined similarity matrix for a batch shaped like `feats0`
(symmetric, unit diagonal, pairwise scores 0.7, 0.2, 0.1). -/
def m0 : List (List ℚ) :=
  [[1, 7/10, 1/5], [7/10, 1, 1/10], [1/5, 1/10, 1]]

/-- Two profiles (ids 1 and 2) with identical feature vectors. -/
def feats1 : List (Row ℚ) :=
  [⟨1, [1, 0], [1, 0], [0, 0], 20, []⟩,
   ⟨2, [1, 0], [1, 0], [0, 0], 20, []⟩]

/-- The combined similarity matrix of `feats1`: all entries are 1, so
every row ties its diagonal entry. -/
def m1 : List (List ℚ) := [[1, 1], [1, 1]]

/-- Spec-side contract of the Recommendation Ranker (`rank`), as the spec
states it: for each profile `i`, every other profile `j ≠ i` is a
candidate, and the score attached to candidate `j` is exactly
`combinedMatrix[i][j]`. -/
def claimed_rank_contract
    (m : List (List ℚ)) (features : List (Row ℚ)) (topk : ℕ) : Prop :=
  ∀ idx ∈ List.range features.length, ∀ j ∈ List.range features.length,
    j ≠ idx →
      ((features.getD j (dRow ℚ)).user_id, (m.getD idx []).getD j 0) ∈
        rec_scores m features topk idx

/-! ### Helper lemmas -/

lemma dot_comm {α : Type} [CommSemiring α] (u v : List α) :
    dot u v = dot v u := by
  unfold dot
  rw [List.zipWith_comm_of_comm]
  exact fun x y => mul_comm x y

lemma dot_self_nonneg (u : List ℚ) : 0 ≤ dot u u := by
  induction u with
  | nil => simp [dot]
  | cons x t ih =>
    have h : dot (x :: t) (x :: t) = x * x + dot t t := by
      simp [dot, List.zipWith]
    rw [h]
    exact add_nonneg (mul_self_nonneg x) ih

lemma dot_self_eq_zero_iff (u : List ℚ) :
    dot u u = 0 ↔ ∀ x ∈ u, x = 0 := by
  induction u with
  | nil => simp [dot]
  | cons x t ih =>
    have h : dot (x :: t) (x :: t) = x * x + dot t t := by
      simp [dot, List.zipWith]
    rw [h]
    rw [add_eq_zero_iff_of_nonneg (mul_self_nonneg x) (dot_self_nonneg t)]
    simp [mul_self_eq_zero, ih]

lemma dot_eq_zero_of_left_zero {α : Type} [CommSemiring α]
    {u : List α} (h : ∀ x ∈ u, x = 0) (v : List α) : dot u v = 0 := by
  induction u generalizing v with
  | nil => simp [dot]
  | cons x t ih =>
    cases v with
    | nil => simp [dot]
    | cons y w =>
      have hd : dot (x :: t) (y :: w) = x * y + dot t w := by
        simp [dot, List.zipWith]
      rw [hd, h x (by simp), ih (fun z hz => h z (by simp [hz])) w]
      ring

lemma getD_map_apply {β γ : Type} (φ : β → γ) :
    ∀ (l : List β) (i : ℕ) (d : β),
      (l.map φ).getD i (φ d) = φ (l.getD i d) := by
  intro l
  induction l with
  | nil => intro i d; simp
  | cons b t ih =>
    intro i d
    cases i with
    | zero => simp
    | succ n => simp only [List.map_cons, List.getD_cons_succ]; exact ih n d

lemma getD_mem_of_lt {β : Type} (l : List β) (i : ℕ) (d : β)
    (h : i < l.length) : l.getD i d ∈ l := by
  rw [List.getD_eq_getElem l d h]
  exact List.getElem_mem h

lemma list_min_le (xs : List ℚ) : ∀ x ∈ xs, list_min xs ≤ x := by
  have key : ∀ (t : List ℚ) (a : ℚ),
      t.foldl min a ≤ a ∧ ∀ x ∈ t, t.foldl min a ≤ x := by
    intro t
    induction t with
    | nil => intro a; simp
    | cons y s ih =>
      intro a
      have h1 := (ih (min a y)).1
      refine ⟨le_trans h1 (min_le_left a y), ?_⟩
      intro x hx
      rcases List.mem_cons.mp hx with rfl | hx
      · exact le_trans h1 (min_le_right a x)
      · exact (ih (min a y)).2 x hx
  intro x hx
  cases xs with
  | nil => cases hx
  | cons a t =>
    rcases List.mem_cons.mp hx with rfl | hx
    · exact (key t x).1
    · exact (key t a).2 x hx

lemma le_list_max (xs : List ℚ) : ∀ x ∈ xs, x ≤ list_max xs := by
  have key : ∀ (t : List ℚ) (a : ℚ),
      a ≤ t.foldl max a ∧ ∀ x ∈ t, x ≤ t.foldl max a := by
    intro t
    induction t with
    | nil => intro a; simp
    | cons y s ih =>
      intro a
      have h1 := (ih (max a y)).1
      refine ⟨le_trans (le_max_left a y) h1, ?_⟩
      intro x hx
      rcases List.mem_cons.mp hx with rfl | hx
      · exact le_trans (le_max_right a x) h1
      · exact (ih (max a y)).2 x hx
  intro x hx
  cases xs with
  | nil => cases hx
  | cons a t =>
    rcases List.mem_cons.mp hx with rfl | hx
    · exact (key t x).1
    · exact (key t a).2 x hx

lemma cosine_sim_comm (u v : List ℚ) : cosine_sim u v = cosine_sim v u := by
  unfold cosine_sim
  exact dot_comm _ _

lemma map_div_all_zero (c : ℝ) :
    ∀ (l : List ℚ), (∀ x ∈ l, x = 0) →
      ∀ y ∈ l.map (fun x : ℚ => (x : ℝ) / c), y = 0 := by
  intro l
  induction l with
  | nil => intro _ y hy; cases hy
  | cons a t ih =>
    intro hz y hy
    rcases List.mem_cons.mp hy with rfl | hy
    · rw [hz a (List.mem_cons_self a t)]
      simp
    · exact ih (fun x hx => hz x (List.mem_cons_of_mem a hx)) y hy

lemma normalizeRow_all_zero {u : List ℚ} (h : dot u u = 0) :
    ∀ y ∈ normalizeRow u, y = 0 := by
  unfold normalizeRow
  exact map_div_all_zero _ u ((dot_self_eq_zero_iff u).mp h)

/-! ### Claim theorems -/

/-- C8: for every pair of vectors, the cosine similarity computed by the
similarity stage is 0 whenever the first vector's norm is 0, on either
side of the pair; the all-zero vector is handled inline by the
normalization (zero norms are replaced by 1) and no division by zero
occurs anywhere, since the embedding of the computation is total. -/
theorem C8_zero_vector_similarity (u v : List ℚ) (h : rowNorm u = 0) :
    cosine_sim u v = 0 ∧ cosine_sim v u = 0 := by
  have hq : dot u u = 0 := by
    have h0 : ((dot u u : ℚ) : ℝ) ≤ 0 := Real.sqrt_eq_zero'.mp h
    have h1 : (0 : ℝ) ≤ ((dot u u : ℚ) : ℝ) := by
      exact_mod_cast dot_self_nonneg u
    exact_mod_cast le_antisymm h0 h1
  have hz := normalizeRow_all_zero hq
  constructor
  · unfold cosine_sim
    exact dot_eq_zero_of_left_zero hz _
  · rw [cosine_sim_comm]
    unfold cosine_sim
    exact dot_eq_zero_of_left_zero hz _

/-- Witness for C8 at the all-zero strengths vector. -/
theorem C8_zero_vector_similarity_witness :
    rowNorm [0, 0, 0] = 0 ∧ cosine_sim [0, 0, 0] [1, 2, 1] = 0 := by
  have h0 : rowNorm [0, 0, 0] = 0 := by
    have hd : dot ([0, 0, 0] : List ℚ) [0, 0, 0] = 0 := by
      with_unfolding_all decide
    rw [rowNorm, hd]
    simp
  exact ⟨h0, (C8_zero_vector_similarity [0, 0, 0] [1, 2, 1] h0).1⟩

/-- C6: the combined similarity matrix is symmetric: entry `(i, j)` equals
entry `(j, i)` for every feature batch and all indices. -/
theorem C6_combined_matrix_symmetric (features : List (Row ℚ)) (i j : ℕ) :
    compute_multi_dimensional_similarity features i j =
      compute_multi_dimensional_similarity features j i := by
  unfold compute_multi_dimensional_similarity
  rw [cosine_sim_comm, cosine_sim_comm ((features.getD i (dRow ℚ)).strength)]

/-- C10: the combined similarity matrix depends only on the `preferred_*`
and `strength_*` feature columns: batches agreeing on those columns give
the identical matrix, whatever their weakness columns, ages and one-hot
categorical columns are. -/
theorem C10_only_preferred_strength (f g : List (Row ℚ))
    (hp : f.map Row.preferred = g.map Row.preferred)
    (hs : f.map Row.strength = g.map Row.strength) (i j : ℕ) :
    compute_multi_dimensional_similarity f i j =
      compute_multi_dimensional_similarity g i j := by
  have hpre : ∀ k : ℕ,
      (f.getD k (dRow ℚ)).preferred = (g.getD k (dRow ℚ)).preferred := by
    intro k
    rw [← getD_map_apply Row.preferred f k (dRow ℚ),
      ← getD_map_apply Row.preferred g k (dRow ℚ), hp]
  have hstr : ∀ k : ℕ,
      (f.getD k (dRow ℚ)).strength = (g.getD k (dRow ℚ)).strength := by
    intro k
    rw [← getD_map_apply Row.strength f k (dRow ℚ),
      ← getD_map_apply Row.strength g k (dRow ℚ), hs]
  unfold compute_multi_dimensional_similarity
  rw [hpre i, hpre j, hstr i, hstr j]

lemma dot_map_div (c : ℝ) :
    ∀ (l l' : List ℚ),
      dot (l.map (fun x : ℚ => (x : ℝ) / c)) (l'.map (fun x : ℚ => (x : ℝ) / c)) =
        ((dot l l' : ℚ) : ℝ) / (c * c) := by
  intro l
  induction l with
  | nil => intro l'; simp [dot]
  | cons a t ih =>
    intro l'
    cases l' with
    | nil => simp [dot]
    | cons b t' =>
      have h1 : dot ((a :: t).map (fun x : ℚ => (x : ℝ) / c))
          ((b :: t').map (fun x : ℚ => (x : ℝ) / c)) =
          (a : ℝ) / c * ((b : ℝ) / c) +
            dot (t.map (fun x : ℚ => (x : ℝ) / c)) (t'.map (fun x : ℚ => (x : ℝ) / c)) := by
        simp only [dot, List.map_cons, List.zipWith_cons_cons, List.sum_cons]
      have h2 : dot (a :: t) (b :: t') = a * b + dot t t' := by
        simp only [dot, List.zipWith_cons_cons, List.sum_cons]
      rw [h1, ih, h2]
      push_cast
      rw [div_mul_div_comm, div_add_div_same]

lemma cosine_sim_self {u : List ℚ} (h : dot u u ≠ 0) : cosine_sim u u = 1 := by
  have hd0 : (0 : ℝ) ≤ ((dot u u : ℚ) : ℝ) := by
    exact_mod_cast dot_self_nonneg u
  have hdne : ((dot u u : ℚ) : ℝ) ≠ 0 := by exact_mod_cast h
  have hs : rowNorm u ≠ 0 := by
    rw [rowNorm, Real.sqrt_ne_zero']
    exact lt_of_le_of_ne hd0 (Ne.symm hdne)
  unfold cosine_sim normalizeRow
  simp only [if_neg hs]
  rw [dot_map_div, rowNorm, Real.mul_self_sqrt hd0]
  exact div_self hdne

/-- C1 evidence: on the batch `feats0` with combined matrix `m0`, the
returned recommendation list of profile 1 is `[3, 2]`, although the
combined score of profile 3 (0.2) is strictly below the score of
profile 2 (0.7): the output is in ascending score order (the code sorts
descending, truncates, then reverses), contradicting the claimed
descending order, and it carries no scores at all. -/
theorem C1_reversed_order :
    recommendations_for m0 feats0 5 0 = [3, 2] ∧
    (feats0.map Row.user_id).getD 1 0 = 2 ∧
    (feats0.map Row.user_id).getD 2 0 = 3 ∧
    (m0.getD 0 []).getD 2 0 < (m0.getD 0 []).getD 1 0 := by
  with_unfolding_all decide

/-- C3 evidence: profiles 1 and 2 of `feats1` have identical feature
vectors, so every entry of the combined similarity matrix is 1 (`m1`);
on that matrix the recommendation list computed for profile 1 is `[1]` —
it contains profile 1's own id.  The `[1:top_k+1]` window drops only the
argmax of the row, which under the tie is the other identical profile. -/
theorem C3_self_recommendation :
    compute_multi_dimensional_similarity feats1 0 0 = 1 ∧
    compute_multi_dimensional_similarity feats1 0 1 = 1 ∧
    compute_multi_dimensional_similarity feats1 1 0 = 1 ∧
    compute_multi_dimensional_similarity feats1 1 1 = 1 ∧
    recommendations_for m1 feats1 5 0 = [1] ∧
    (feats1.map Row.user_id).getD 0 0 = 1 := by
  have hcs : cosine_sim [1, 0] [1, 0] = 1 := by
    refine cosine_sim_self ?_
    have : dot ([1, 0] : List ℚ) [1, 0] = 1 := by with_unfolding_all decide
    rw [this]
    exact one_ne_zero
  refine ⟨?_, ?_, ?_, ?_, by with_unfolding_all decide, by decide⟩ <;>
    · unfold compute_multi_dimensional_similarity
      simp only [feats1, List.getD_cons_zero, List.getD_cons_succ, hcs]
      norm_num [preferred_weight, strength_weight]

/-- C2 counterexample: on `(m0, feats0)` the ranker's candidate scores are
not the combined-matrix entries — the score stored for candidate `j` is
`0.7 * m[i][j] + 0.3 * interests_overlap`, so the spec-side contract
`claimed_rank_contract` fails (candidate 2 of profile 1 is stored with
score 0.49, not its combined score 0.7). -/
theorem C2_rank_contract_counterexample :
    ¬ claimed_rank_contract m0 feats0 5 := by
  unfold claimed_rank_contract
  with_unfolding_all decide

/-- C4 counterexample: the value "Basket Weaving" is outside the fixed
subject vocabulary, yet `encode_subjects` does not fail on it — it
produces exactly the same multi-hot vector as the empty subject list, so
the unrecognized value is silently dropped and no `UnknownCategory`-style
error exists in the code. -/
theorem C4_unknown_category_counterexample :
    "Basket Weaving" ∉ subject_vocab ∧
    encode_subjects ["Basket Weaving"] = encode_subjects [] := by
  with_unfolding_all decide

/-- C4 amended: subject encoding is total and depends only on the
intersection of the input with the fixed vocabulary (unknown values are
silently ignored); the multi-hot column layout is fixed by the subject
vocabulary; but the categorical one-hot columns produced by
`pd.get_dummies(..., drop_first=True)` are derived from the values
observed in the batch (sorted observed categories minus the first), not
from a fixed vocabulary — e.g. a batch whose `study_preference` column is
`[solo, solo]` yields no columns at all, while `[solo, group]` yields the
single column `solo`. -/
theorem C4_encoding_amended :
    (∀ us : List String,
      encode_subjects us =
        encode_subjects (us.filter (fun s => s ∈ subject_vocab))) ∧
    (∀ us : List String,
      (encode_subjects us).length = subject_vocab.length) ∧
    dummy_columns ["solo", "solo"] = [] ∧
    dummy_columns ["solo", "group"] = ["solo"] := by
  refine ⟨fun us => ?_, fun us => by simp [encode_subjects],
    by with_unfolding_all decide, by with_unfolding_all decide⟩
  unfold encode_subjects
  refine List.map_congr_left (fun s hs => ?_)
  by_cases hmem : s ∈ us
  · have h2 : s ∈ us.filter (fun s => decide (s ∈ subject_vocab)) := by
      rw [List.mem_filter]
      exact ⟨hmem, by simp [hs]⟩
    rw [if_pos hmem, if_pos h2]
  · have h2 : s ∉ us.filter (fun s => decide (s ∈ subject_vocab)) := by
      intro hc
      exact hmem (List.mem_filter.mp hc).1
    rw [if_neg hmem, if_neg h2]

/-- C5 counterexample: for a user id absent from the `users` table the
endpoint raises a 404 error; it does not return the empty sequence, so an
unknown profile is reported as an error distinct from "no matches yet". -/
theorem C5_unknown_user_counterexample :
    get_recommendations ⟨[], []⟩ 7 = Except.error 404 ∧
    get_recommendations ⟨[], []⟩ 7 ≠ Except.ok [] := by
  constructor
  · rfl
  · intro h
    rw [show get_recommendations ⟨[], []⟩ 7 = Except.error 404 from rfl] at h
    exact Except.noConfusion h

/-- C5 amended: the endpoint returns the empty sequence only when the
profile exists but no recommendations row has been computed for it; a
profile unknown to the engine is answered with a 404 error instead. -/
theorem C5_read_amended (db : DBState) (uid : ℕ) :
    (uid ∈ db.users → lookup_recommended db uid = none →
      get_recommendations db uid = Except.ok []) ∧
    (uid ∉ db.users → get_recommendations db uid = Except.error 404) := by
  constructor
  · intro h1 h2
    unfold get_recommendations
    rw [if_pos h1, h2]
  · intro h1
    unfold get_recommendations
    rw [if_neg h1]

/-- Witness for the amended C5: an existing user with no computed
recommendations receives the empty partner list. -/
theorem C5_read_amended_witness :
    get_recommendations ⟨[3], []⟩ 3 = Except.ok [] :=
  (C5_read_amended ⟨[3], []⟩ 3).1 (by decide) (by rfl)

/-- Witness for C10: perturbing weaknesses, ages and the categorical
one-hot block leaves the combined matrix entry unchanged. -/
theorem C10_only_preferred_strength_witness :
    compute_multi_dimensional_similarity feats1 0 1 =
      compute_multi_dimensional_similarity
        [⟨1, [1, 0], [1, 0], [9, 9], 55, [1, 0]⟩,
         ⟨2, [1, 0], [1, 0], [3, 4], 60, [0, 1]⟩] 0 1 :=
  C10_only_preferred_strength feats1
    [⟨1, [1, 0], [1, 0], [9, 9], 55, [1, 0]⟩,
     ⟨2, [1, 0], [1, 0], [3, 4], 60, [0, 1]⟩]
    (by decide) (by decide) 0 1

/-- C9: age min-max scaling over the batch: the scaled column keeps its
length, an entry equal to the batch minimum is scaled to 0, an entry equal
to the batch maximum is scaled to 1 when the batch is not constant, and a
constant batch (min = max) scales every entry to 0. -/
theorem C9_age_minmax (xs : List ℚ) (i : ℕ) (hi : i < xs.length) :
    (minmax_scale xs).length = xs.length ∧
    (xs.getD i 0 = list_min xs → (minmax_scale xs).getD i 0 = 0) ∧
    (xs.getD i 0 = list_max xs → list_min xs ≠ list_max xs →
      (minmax_scale xs).getD i 0 = 1) ∧
    (list_min xs = list_max xs → (minmax_scale xs).getD i 0 = 0) := by
  have hlen : (minmax_scale xs).length = xs.length := by
    unfold minmax_scale
    exact List.length_map xs _
  have hmi : i < (minmax_scale xs).length := by
    rw [hlen]
    exact hi
  have hmap : (minmax_scale xs).getD i 0 =
      (xs.getD i 0 - list_min xs) /
        (if list_max xs - list_min xs = 0 then 1
          else list_max xs - list_min xs) := by
    rw [List.getD_eq_getElem _ _ hmi]
    unfold minmax_scale
    rw [List.getElem_map, List.getD_eq_getElem _ _ hi]
  refine ⟨hlen, ?_, ?_, ?_⟩
  · intro h
    rw [hmap, h, sub_self, zero_div]
  · intro h hne
    have hsub : list_max xs - list_min xs ≠ 0 := sub_ne_zero.mpr (Ne.symm hne)
    rw [hmap, h, if_neg hsub]
    exact div_self hsub
  · intro heq
    have hmem : xs.getD i 0 ∈ xs := getD_mem_of_lt xs i 0 hi
    have hx : xs.getD i 0 = list_min xs :=
      le_antisymm (heq ▸ le_list_max xs _ hmem) (list_min_le xs _ hmem)
    rw [hmap, hx, sub_self, zero_div]

/-- Witness for C9 on the spec's own scenario `[20, 30, 40]`: the oldest
age scales to 1 and the youngest to 0. -/
theorem C9_age_minmax_witness :
    (minmax_scale [20, 30, 40]).getD 2 0 = 1 ∧
    (minmax_scale [20, 30, 40]).getD 0 0 = 0 := by
  constructor
  · exact (C9_age_minmax [20, 30, 40] 2 (by decide)).2.2.1
      (by with_unfolding_all decide) (by with_unfolding_all decide)
  · exact (C9_age_minmax [20, 30, 40] 0 (by decide)).2.1
      (by with_unfolding_all decide)

/-! ### Ranker structure lemmas (for C2 and C7) -/

lemma argsort_perm {α : Type} [LinearOrderedField α] (r : List α) :
    (argsort r).Perm (List.range r.length) :=
  List.perm_insertionSort _ _

lemma argsort_nodup {α : Type} [LinearOrderedField α] (r : List α) :
    (argsort r).Nodup :=
  ((argsort_perm r).nodup_iff).mpr (List.nodup_range _)

lemma argsort_length {α : Type} [LinearOrderedField α] (r : List α) :
    (argsort r).length = r.length := by
  rw [(argsort_perm r).length_eq, List.length_range]

lemma similar_indices_sublist {α : Type} [LinearOrderedField α]
    (m : List (List α)) (idx k : ℕ) :
    (similar_indices m idx k).Sublist ((argsort (m.getD idx [])).reverse) := by
  unfold similar_indices
  exact (List.take_sublist _ _).trans (List.drop_sublist _ _)

lemma similar_indices_nodup {α : Type} [LinearOrderedField α]
    (m : List (List α)) (idx k : ℕ) : (similar_indices m idx k).Nodup :=
  (similar_indices_sublist m idx k).nodup
    (List.nodup_reverse.mpr (argsort_nodup _))

lemma similar_indices_mem {α : Type} [LinearOrderedField α]
    {m : List (List α)} {idx k j : ℕ} (h : j ∈ similar_indices m idx k) :
    j < (m.getD idx []).length := by
  have h2 : j ∈ (argsort (m.getD idx [])).reverse :=
    (similar_indices_sublist m idx k).subset h
  rw [List.mem_reverse] at h2
  exact List.mem_range.mp ((argsort_perm _).mem_iff.mp h2)

lemma similar_indices_length {α : Type} [LinearOrderedField α]
    (m : List (List α)) (idx k : ℕ) :
    (similar_indices m idx k).length = min k ((m.getD idx []).length - 1) := by
  unfold similar_indices
  rw [List.length_take, List.length_drop, List.length_reverse, argsort_length]

lemma dictInsert_append {α : Type} (d : List (ℕ × α)) (k : ℕ) (v : α)
    (h : ∀ p ∈ d, p.1 ≠ k) : dictInsert d k v = d ++ [(k, v)] := by
  have hany : d.any (fun p => p.1 == k) = false := by
    rw [List.any_eq_false]
    intro p hp
    simpa using h p hp
  unfold dictInsert
  rw [hany]
  simp

lemma foldl_dictInsert_map {α : Type} (key : ℕ → ℕ) (val : ℕ → α) :
    ∀ (js : List ℕ) (d : List (ℕ × α)),
      (js.map key).Nodup → (∀ p ∈ d, ∀ j ∈ js, p.1 ≠ key j) →
      js.foldl (fun d j => dictInsert d (key j) (val j)) d =
        d ++ js.map (fun j => (key j, val j)) := by
  intro js
  induction js with
  | nil => intro d _ _; simp
  | cons j t ih =>
    intro d hnd hdis
    have hndc : (key j :: t.map key).Nodup := by simpa using hnd
    have hnd' := List.nodup_cons.mp hndc
    have h1 : dictInsert d (key j) (val j) = d ++ [(key j, val j)] :=
      dictInsert_append d (key j) (val j)
        (fun p hp => hdis p hp j (List.mem_cons_self j t))
    have h2 : ∀ p ∈ d ++ [(key j, val j)], ∀ i ∈ t, p.1 ≠ key i := by
      intro p hp i hi
      rcases List.mem_append.mp hp with hp | hp
      · exact hdis p hp i (List.mem_cons_of_mem j hi)
      · have hpj : p = (key j, val j) := by simpa using hp
        subst hpj
        intro heq
        have heq' : key j = key i := heq
        exact hnd'.1 (heq'.symm ▸ List.mem_map_of_mem key hi)
    rw [List.foldl_cons, h1, ih _ hnd'.2 h2, List.append_assoc]
    rfl

lemma nodup_map_getD_user_id {α : Type} [LinearOrderedField α]
    (features : List (Row α)) (hids : (features.map Row.user_id).Nodup)
    (js : List ℕ) (hjs : js.Nodup)
    (hlt : ∀ j ∈ js, j < features.length) :
    (js.map (fun j => (features.getD j (dRow α)).user_id)).Nodup := by
  refine List.Nodup.map_on ?_ hjs
  intro a ha b hb heq
  have ha' : a < features.length := hlt a ha
  have hb' : b < features.length := hlt b hb
  have hma : a < (features.map Row.user_id).length := by
    rw [List.length_map]
    exact ha'
  have hmb : b < (features.map Row.user_id).length := by
    rw [List.length_map]
    exact hb'
  refine (@List.Nodup.getElem_inj_iff _ _ hids a hma b hmb).mp ?_
  rw [List.getElem_map, List.getElem_map,
    ← List.getD_eq_getElem features (dRow α) ha',
    ← List.getD_eq_getElem features (dRow α) hb']
  exact heq

lemma rec_scores_eq_map {α : Type} [LinearOrderedField α]
    (m : List (List α)) (features : List (Row α)) (k idx : ℕ)
    (h : ((similar_indices m idx k).map
      (fun j => (features.getD j (dRow α)).user_id)).Nodup) :
    rec_scores m features k idx =
      (similar_indices m idx k).map
        (fun j => ((features.getD j (dRow α)).user_id,
          final_score m features idx j)) := by
  have := foldl_dictInsert_map
    (fun j => (features.getD j (dRow α)).user_id)
    (fun j => final_score m features idx j)
    (similar_indices m idx k) [] h
    (fun p hp => absurd hp (List.not_mem_nil p))
  exact this.trans (List.nil_append _)

/-- C2 amended: for every matrix, batch and `k`, given pairwise-distinct
candidate ids, the candidate pool for profile `i` is the argsort window
`argsort(row)[::-1][1:k+1]` (not all `j ≠ i`), the score stored for a
candidate `j` is `0.7 * combinedMatrix[i][j] + 0.3 * interests_overlap`
(not the raw combined score), and the final output pairs each profile
with candidate ids only — the scored list sorted descending, truncated,
reversed, and stripped of its scores. -/
theorem C2_rank_scoring_amended {α : Type} [LinearOrderedField α]
    (m : List (List α)) (features : List (Row α)) (k idx : ℕ)
    (h : ((similar_indices m idx k).map
      (fun j => (features.getD j (dRow α)).user_id)).Nodup) :
    rec_scores m features k idx =
      (similar_indices m idx k).map
        (fun j => ((features.getD j (dRow α)).user_id,
          final_score m features idx j)) ∧
    recommendations_for m features k idx =
      (((List.insertionSort (fun a b => b.2 ≤ a.2)
        (rec_scores m features k idx)).take k).reverse).map Prod.fst :=
  ⟨rec_scores_eq_map m features k idx h, rfl⟩

/-- Witness for the amended C2: the concrete candidate scores on
`(m0, feats0)` are the re-scored values, not the matrix entries. -/
theorem C2_rank_scoring_amended_witness :
    rec_scores m0 feats0 5 0 = [(2, 49/100), (3, 7/50)] := by
  have h := (C2_rank_scoring_amended m0 feats0 5 0
    (by with_unfolding_all decide)).1
  rw [h]
  with_unfolding_all decide

/-- C7: for every `N x N` matrix, batch of `N` profiles with distinct ids
and positive `k`, the recommendation list of each profile has length
`min k (N - 1)`: a single-profile batch yields the empty list, and `k`
larger than `N - 1` yields `N - 1` entries, never padded. -/
theorem C7_recommendation_length {α : Type} [LinearOrderedField α]
    (m : List (List α)) (features : List (Row α)) (k idx : ℕ)
    (hsq : ∀ row ∈ m, row.length = features.length)
    (hml : m.length = features.length)
    (hids : (features.map Row.user_id).Nodup)
    (_hk : 0 < k) (hidx : idx < features.length) :
    (recommendations_for m features k idx).length =
      min k (features.length - 1) := by
  have hrowmem : m.getD idx [] ∈ m :=
    getD_mem_of_lt m idx [] (by rw [hml]; exact hidx)
  have hrow : (m.getD idx []).length = features.length := hsq _ hrowmem
  have hsi : (similar_indices m idx k).length =
      min k (features.length - 1) := by
    rw [similar_indices_length, hrow]
  have hmemlt : ∀ j ∈ similar_indices m idx k, j < features.length := by
    intro j hj
    rw [← hrow]
    exact similar_indices_mem hj
  have hnodup := nodup_map_getD_user_id features hids _
    (similar_indices_nodup m idx k) hmemlt
  have hrs := rec_scores_eq_map m features k idx hnodup
  unfold recommendations_for sorted_recs
  rw [List.length_map, List.length_reverse, List.length_take,
    List.length_insertionSort, hrs, List.length_map, hsi, ← min_assoc,
    min_self]

/-- Witness for C7 on `(m0, feats0)` with `k = 2`: each list has exactly
`min 2 2 = 2` entries. -/
theorem C7_recommendation_length_witness :
    (recommendations_for m0 feats0 2 0).length = min 2 (feats0.length - 1) :=
  C7_recommendation_length m0 feats0 2 0 (by with_unfolding_all decide)
    (by decide) (by decide) (by decide) (by decide)

end StudyMate
